import Mathlib

/-!
Verification of the natural-language transaction parser of the
telegram-finance-bot repository.

The Python source (src/utils/helpers.py and src/config.py) is shallowly
embedded below.  Python floats produced by parsing decimal strings are
modelled as exact rationals; Python datetime values are modelled as
calendar dates (the time-of-day component cancels in the one comparison
the code performs, which compares two datetimes sharing the same
time-of-day).  The wall-clock instant that the source reads via
datetime.now inside parse_date_from_text is modelled as an explicit
today parameter.  Python regular expressions are embedded through a
small backtracking matcher; each pattern of the source is transcribed
node by node.
-/

namespace FinanceBot

/-! ## Basic character and string utilities -/

def natOfDigits (t : List Char) : Nat :=
  t.foldl (fun a c => a * 10 + (c.toNat - 48)) 0

/-- Python str.strip with the default whitespace set. -/
def pyStrip (t : List Char) : List Char :=
  ((t.dropWhile Char.isWhitespace).reverse.dropWhile Char.isWhitespace).reverse

def toLowerL (t : List Char) : List Char := t.map Char.toLower

/-- Python substring membership test, needle in haystack. -/
def leadsWith : List Char → List Char → Bool
  | [], _ => true
  | _ :: _, [] => false
  | c :: cs, d :: ds => c = d && leadsWith cs ds

def strContains (hay needle : List Char) : Bool :=
  match hay with
  | [] => leadsWith needle []
  | _ :: rest => leadsWith needle hay || strContains rest needle

/-- Python re.sub of a whitespace run by a single space, as used by the
source in re.sub applied to one or more whitespace characters. -/
def collapseWsAux : List Char → Bool → List Char
  | [], _ => []
  | c :: cs, prev =>
      if c.isWhitespace then
        if prev then collapseWsAux cs true else ' ' :: collapseWsAux cs true
      else c :: collapseWsAux cs false

def collapseWs (t : List Char) : List Char := collapseWsAux t false

/-- Python float applied to the digit-and-dot strings the code builds:
an optional integer part, at most one dot, an optional fractional part,
at least one digit overall.  Anything else raises ValueError in Python
and is modelled as none. -/
def parseDecimal (t : List Char) : Option ℚ :=
  match t.splitOn '.' with
  | [w] =>
      if w ≠ [] ∧ w.all Char.isDigit then some (mkRat (natOfDigits w) 1) else none
  | [w, f] =>
      if (w ≠ [] ∨ f ≠ []) ∧ w.all Char.isDigit ∧ f.all Char.isDigit then
        some (mkRat (natOfDigits (w ++ f)) (10 ^ f.length))
      else none
  | _ => none

/-! ## Calendar dates

Python datetime values are modelled at date precision.  The arithmetic
uses the standard civil-calendar day-numbering algorithms with day 0 at
1970-01-01. -/

structure Date where
  year : Int
  month : Nat
  day : Nat
  deriving DecidableEq, Repr

def isLeap (y : Int) : Bool :=
  y.emod 4 = 0 && (y.emod 100 ≠ 0 || y.emod 400 = 0)

def daysInMonth (y : Int) (m : Nat) : Nat :=
  if m = 1 then 31 else if m = 2 then (if isLeap y then 29 else 28)
  else if m = 3 then 31 else if m = 4 then 30 else if m = 5 then 31
  else if m = 6 then 30 else if m = 7 then 31 else if m = 8 then 31
  else if m = 9 then 30 else if m = 10 then 31 else if m = 11 then 30
  else if m = 12 then 31 else 0

/-- Python datetime construction: validates the components, ValueError
modelled as none. -/
def mkDate? (y : Int) (m d : Nat) : Option Date :=
  if 1 ≤ m ∧ m ≤ 12 ∧ 1 ≤ d ∧ d ≤ daysInMonth y m then some ⟨y, m, d⟩ else none

def toDays (dt : Date) : Int :=
  let m : Int := dt.month
  let y : Int := if m ≤ 2 then dt.year - 1 else dt.year
  let era : Int := Int.ediv y 400
  let yoe : Int := y - era * 400
  let mp : Int := if m > 2 then m - 3 else m + 9
  let doy : Int := Int.ediv (153 * mp + 2) 5 + (dt.day : Int) - 1
  let doe : Int := yoe * 365 + Int.ediv yoe 4 - Int.ediv yoe 100 + doy
  era * 146097 + doe - 719468

def ofDays (z0 : Int) : Date :=
  let z := z0 + 719468
  let era := Int.ediv z 146097
  let doe := z - era * 146097
  let yoe := Int.ediv (doe - Int.ediv doe 1460 + Int.ediv doe 36524 - Int.ediv doe 146096) 365
  let y := yoe + era * 400
  let doy := doe - (365 * yoe + Int.ediv yoe 4 - Int.ediv yoe 100)
  let mp := Int.ediv (5 * doy + 2) 153
  let d := doy - Int.ediv (153 * mp + 2) 5 + 1
  let m := if mp < 10 then mp + 3 else mp - 9
  ⟨(if m ≤ 2 then y + 1 else y), m.toNat, d.toNat⟩

/-- Python timedelta addition on datetimes, at date precision. -/
def addDays (dt : Date) (n : Int) : Date := ofDays (toDays dt + n)

/-- Python datetime.weekday, Monday is 0. -/
def weekday (dt : Date) : Nat := ((toDays dt + 3).emod 7).toNat

/-- Python comparison of two datetimes sharing a time-of-day. -/
def dateLt (a b : Date) : Bool := toDays a < toDays b

/-! ## A small backtracking regular-expression matcher

Node-for-node transcription target for the patterns of the source.
All matching is case-insensitive on the input character, which is
faithful here because every pattern of the source is either applied to
a lowercased string or compiled with the IGNORECASE flag. -/

inductive RE where
  | eps : RE
  | cls : (Char → Bool) → RE
  | lit : List Char → RE
  | seq : RE → RE → RE
  | alt : RE → RE → RE
  | opt : RE → RE
  | rep : (Char → Bool) → Nat → Option Nat → RE
  | repSeq : List (Char → Bool) → RE
  | grp : Nat → RE → RE
  | nla : RE → RE
  | wb : RE
  | eos : RE

structure MSt where
  pos : Nat
  prev : Option Char
  rest : List Char
  caps : List (Nat × Nat × Nat)

abbrev MRes := Option (Nat × List (Nat × Nat × Nat))

abbrev MCont := MSt → MRes

def isWordChar (c : Char) : Bool := c.isAlpha || c.isDigit || c = '_'

def clsStep (p : Char → Bool) (st : MSt) (k : MCont) : MRes :=
  match st.rest with
  | [] => none
  | c :: cs => if p c.toLower then k ⟨st.pos + 1, some c, cs, st.caps⟩ else none

def litStep : List Char → MSt → MCont → MRes
  | [], st, k => k st
  | c :: cs, st, k =>
      match st.rest with
      | [] => none
      | d :: ds =>
          if d.toLower = c then litStep cs ⟨st.pos + 1, some d, ds, st.caps⟩ k
          else none

/-- States reachable by greedily consuming 0, 1, 2, ... characters of a
character class, in increasing order of consumed count. -/
def repStates (p : Char → Bool) : Nat → Option Nat → MSt → List MSt
  | 0, _, st => [st]
  | fuel + 1, hi, st =>
      if hi = some 0 then [st]
      else
        st :: (match st.rest with
          | [] => []
          | c :: cs =>
              if p c.toLower then
                repStates p fuel (hi.map (fun n => n - 1)) ⟨st.pos + 1, some c, cs, st.caps⟩
              else [])

/-- Greedy bounded class repetition with backtracking: longest first. -/
def repStep (p : Char → Bool) (lo : Nat) (hi : Option Nat) (st : MSt) (k : MCont) : MRes :=
  (((repStates p (st.rest.length + 1) hi st).drop lo).reverse).findSome? k

def seqClasses : List (Char → Bool) → MSt → Option MSt
  | [], st => some st
  | p :: ps, st =>
      match st.rest with
      | [] => none
      | c :: cs => if p c.toLower then seqClasses ps ⟨st.pos + 1, some c, cs, st.caps⟩ else none

/-- Greedy star of a fixed sequence of character classes, with
backtracking: try one more iteration first, then stop here. -/
def repSeqStep (ps : List (Char → Bool)) : Nat → MSt → MCont → MRes
  | 0, st, k => k st
  | fuel + 1, st, k =>
      (match seqClasses ps st with
       | some st2 => if st.pos < st2.pos then repSeqStep ps fuel st2 k else none
       | none => none) <|> k st

def reMat : RE → MSt → MCont → MRes
  | .eps, st, k => k st
  | .cls p, st, k => clsStep p st k
  | .lit s, st, k => litStep s st k
  | .seq a b, st, k => reMat a st (fun st2 => reMat b st2 k)
  | .alt a b, st, k => reMat a st k <|> reMat b st k
  | .opt a, st, k => reMat a st k <|> k st
  | .rep p lo hi, st, k => repStep p lo hi st k
  | .repSeq ps, st, k => repSeqStep ps (st.rest.length + 1) st k
  | .grp i a, st, k =>
      reMat a st (fun st2 => k ⟨st2.pos, st2.prev, st2.rest, (i, st.pos, st2.pos) :: st2.caps⟩)
  | .nla a, st, k =>
      match reMat a st (fun st2 => some (st2.pos, st2.caps)) with
      | none => k st
      | some _ => none
  | .wb, st, k =>
      let before := match st.prev with | none => false | some c => isWordChar c
      let after := match st.rest with | [] => false | c :: _ => isWordChar c
      if before ≠ after then k st else none
  | .eos, st, k => if st.rest.isEmpty then k st else none

def finalK : MCont := fun st => some (st.pos, st.caps)

structure MatchRes where
  sIdx : Nat
  eIdx : Nat
  caps : List (Nat × Nat × Nat)
  deriving DecidableEq, Repr

/-- Python re.search starting at a given offset. -/
def searchFrom : RE → Nat → Option Char → List Char → Option MatchRes
  | re, pos, prev, rest =>
      match reMat re ⟨pos, prev, rest, []⟩ finalK with
      | some (e, caps) => some ⟨pos, e, caps⟩
      | none =>
          match rest with
          | [] => none
          | c :: cs => searchFrom re (pos + 1) (some c) cs

/-- Python re.search. -/
def research (re : RE) (t : List Char) : Option MatchRes :=
  searchFrom re 0 none t

/-- Python re.match: anchored at the start of the string. -/
def rematch (re : RE) (t : List Char) : Option MatchRes :=
  match reMat re ⟨0, none, t, []⟩ finalK with
  | some (e, caps) => some ⟨0, e, caps⟩
  | none => none

def findAllFrom : Nat → RE → List Char → Nat → List MatchRes
  | 0, _, _, _ => []
  | fuel + 1, re, t, pos =>
      let prev := if pos = 0 then none else t.get? (pos - 1)
      match searchFrom re pos prev (t.drop pos) with
      | none => []
      | some m =>
          m :: findAllFrom fuel re t (if m.sIdx < m.eIdx then m.eIdx else m.eIdx + 1)

/-- Python re.finditer: non-overlapping matches, left to right. -/
def findAllRe (re : RE) (t : List Char) : List MatchRes :=
  findAllFrom (t.length + 1) re t 0

def sliceStr (t : List Char) (a b : Nat) : List Char := (t.take b).drop a

def capSpan? (caps : List (Nat × Nat × Nat)) (i : Nat) : Option (Nat × Nat) :=
  match caps.find? (fun q => q.1 = i) with
  | some q => some q.2
  | none => none

/-- Text of a numbered capture group of a match. -/
def groupTxt (t : List Char) (m : MatchRes) (i : Nat) : Option (List Char) :=
  (capSpan? m.caps i).map (fun ab => sliceStr t ab.1 ab.2)

/-- Python re.sub replacing every match (our patterns never match the
empty string). -/
def subAllFrom : Nat → RE → List Char → List Char → Nat → List Char
  | 0, _, _, t, pos => t.drop pos
  | fuel + 1, re, repl, t, pos =>
      let prev := if pos = 0 then none else t.get? (pos - 1)
      match searchFrom re pos prev (t.drop pos) with
      | none => t.drop pos
      | some m =>
          if m.sIdx < m.eIdx then
            (t.drop pos).take (m.sIdx - pos) ++ repl ++ subAllFrom fuel re repl t m.eIdx
          else t.drop pos

def subAll (re : RE) (repl : List Char) (t : List Char) : List Char :=
  subAllFrom (t.length + 1) re repl t 0

/-! ### Pattern-building helpers -/

def chrRe (c : Char) : RE := .cls (fun d => d = c)

def isDigitC : Char → Bool := Char.isDigit

def isSpaceC : Char → Bool := Char.isWhitespace

def sepDC : Char → Bool := fun c => c = '.' || c = ','

def slashDashC : Char → Bool := fun c => c = '/' || c = '-'

def azC : Char → Bool := fun c => 'a' ≤ c && c ≤ 'z'

def digitsRe (lo : Nat) (hi : Option Nat) : RE := .rep isDigitC lo hi

def ws0 : RE := .rep isSpaceC 0 none

def ws1 : RE := .rep isSpaceC 1 none

def litR (s : String) : RE := .lit s.data

def altL (r : RE) (rs : List RE) : RE := rs.foldl .alt r

def seqL (r : RE) (rs : List RE) : RE := rs.foldl .seq r

/-! ## parse_amount (src/utils/helpers.py lines 15-100) -/

/-- The character class of the currency-symbol cleanup
re.sub removing the characters r p $ and the four currency signs. -/
def currencyChars : List Char := ['r', 'p', '$', '€', '£', '¥', '₹']

/-- strip, lowercase, then delete every character of the currency
class, exactly as the source does before any pattern runs. -/
def cleanAmount (s : String) : List Char :=
  (toLowerL (pyStrip s.data)).filter (fun c => ¬ currencyChars.contains c)

/-- A number with an optional single separator-and-digits tail. -/
def numRe : RE :=
  .seq (digitsRe 1 none) (.opt (.seq (.cls sepDC) (digitsRe 1 none)))

/-- The multiplier suffix alternation, in source order. -/
def multAlts : RE :=
  altL (.cls (fun c => ['k', 'j', 't', 'r', 'b'].contains c))
    [litR "ribu", litR "rb", litR "juta", litR "jt", litR "million",
     litR "thousand", litR "trillion", litR "milyar"]

/-- The multiplier pattern of the source: a number, optional
whitespace, a suffix token, then one whitespace or end of string. -/
def multPattern : RE :=
  seqL (.grp 1 numRe) [ws0, .grp 2 multAlts, .alt (.cls isSpaceC) .eos]

/-- The anchored simple-number pattern: digits, any count of groups of
a separator and three digits, an optional separator and one or two
digits, end of string. -/
def simpleNumPattern : RE :=
  seqL (digitsRe 1 none)
    [.repSeq [sepDC, isDigitC, isDigitC, isDigitC],
     .opt (.seq (.cls sepDC) (digitsRe 1 (some 2))), .eos]

/-- The final fallback pattern: a digit run with an optional dot tail. -/
def fallbackPattern : RE :=
  .grp 1 (.seq (digitsRe 1 none) (.opt (.seq (chrRe '.') (digitsRe 1 none))))

/-- Search of the multiplier pattern, returning the number text and the
suffix text. -/
def multSearch (t : List Char) : Option (List Char × String) :=
  match research multPattern t with
  | none => none
  | some m =>
      match groupTxt t m 1, groupTxt t m 2 with
      | some np, some suf => some (np, String.mk suf)
      | _, _ => none

/-- Multiplication of an exact rational by a power of ten, the form
every multiplier of the source takes. -/
def mulPow10 (b : ℚ) (k : Nat) : ℚ := mkRat (b.num * 10 ^ k) b.den

/-- The multiplier table of the source, including its else branch that
returns the base amount unchanged for an unknown suffix. -/
def applyMultiplier (suf : String) (b : ℚ) : ℚ :=
  if suf = "k" ∨ suf = "ribu" ∨ suf = "rb" ∨ suf = "thousand" then mulPow10 b 3
  else if suf = "juta" ∨ suf = "jt" ∨ suf = "million" then mulPow10 b 6
  else if suf = "t" ∨ suf = "trillion" then mulPow10 b 12
  else if suf = "milyar" then mulPow10 b 9
  else b

def lastIdxOf (t : List Char) (c : Char) : Nat :=
  (t.length - 1) - (t.reverse.indexOf c)

/-- The separator-disambiguation branch of the source, applied when the
anchored simple-number pattern matched; a failing float conversion
escapes to the outer handler, so none here is the overall result. -/
def simpleBranch (t : List Char) : Option ℚ :=
  let t2 :=
    if t.contains ',' ∧ t.contains '.' then
      if lastIdxOf t ',' > lastIdxOf t '.' then
        (t.filter (fun c => c ≠ '.')).map (fun c => if c = ',' then '.' else c)
      else t.filter (fun c => c ≠ ',')
    else if t.contains ',' then
      let parts := t.splitOn ','
      if parts.length = 2 ∧ (parts.getD 1 []).length ≤ 2 then
        t.map (fun c => if c = ',' then '.' else c)
      else t.filter (fun c => c ≠ ',')
    else t
  parseDecimal t2

/-- Patterns 1 and 2 of the source, run when the multiplier pattern did
not produce a value. -/
def plainBranch (t : List Char) : Option ℚ :=
  if (rematch simpleNumPattern t).isSome then simpleBranch t
  else
    match research fallbackPattern t with
    | none => none
    | some m =>
        match groupTxt t m 1 with
        | some g => parseDecimal g
        | none => none

/-- parse_amount of the source.  The amount is modelled as an exact
rational. -/
def parse_amount (input : String) : Option ℚ :=
  if input = "" then none
  else
    let t := cleanAmount input
    match multSearch t with
    | some (np, suf) =>
        let np2 := np.map (fun c => if c = ',' then '.' else c)
        match parseDecimal np2 with
        | some b => some (applyMultiplier suf b)
        | none => plainBranch t
    | none => plainBranch t

/-! ## parse_date_from_text (src/utils/helpers.py lines 134-293) -/

def reNZ : Char → Bool := fun c => '1' ≤ c && c ≤ '9'

/-- The strptime day field: one or two digits with value 1 to 31, in
the alternation order of the CPython implementation. -/
def reDD : RE :=
  altL (.seq (chrRe '3') (.cls (fun c => c = '0' || c = '1')))
    [.seq (.cls (fun c => c = '1' || c = '2')) (.cls isDigitC),
     .seq (chrRe '0') (.cls reNZ), .cls reNZ]

/-- The strptime month field: one or two digits with value 1 to 12. -/
def reMM : RE :=
  altL (.seq (chrRe '1') (.cls (fun c => c = '0' || c = '1' || c = '2')))
    [.seq (chrRe '0') (.cls reNZ), .cls reNZ]

def fmtSep (sep : Char) (y4 : Bool) : RE :=
  seqL (.grp 1 reDD)
    [chrRe sep, .grp 2 reMM, chrRe sep,
     .grp 3 (if y4 then digitsRe 4 (some 4) else digitsRe 2 (some 2)), .eos]

def fmtISO : RE :=
  seqL (.grp 3 (digitsRe 4 (some 4))) [chrRe '-', .grp 2 reMM, chrRe '-', .grp 1 reDD, .eos]

def fmtSpace : RE :=
  seqL (.grp 1 reDD) [ws1, .grp 2 reMM, ws1, .grp 3 (digitsRe 4 (some 4)), .eos]

/-- The fixed strptime format list of the source, in order; the flag
marks a two-digit year. -/
def dateFormats : List (RE × Bool) :=
  [(fmtSep '/' true, false), (fmtSep '-' true, false), (fmtSep '.' true, false),
   (fmtISO, false), (fmtSep '/' false, true), (fmtSep '-' false, true),
   (fmtSpace, false)]

def tryFormat (t : List Char) (re : RE) (y2 : Bool) : Option Date :=
  match rematch re t with
  | none => none
  | some m =>
      match groupTxt t m 1, groupTxt t m 2, groupTxt t m 3 with
      | some d, some mo, some y =>
          let yn := natOfDigits y
          let yv : Int := if y2 then (if yn ≤ 68 then 2000 + yn else 1900 + yn) else yn
          mkDate? yv (natOfDigits mo) (natOfDigits d)
      | _, _, _ => none

def tryFormats (t : List Char) : Option Date :=
  dateFormats.findSome? (fun f => tryFormat t f.1 f.2)

/-- The Indonesian month-name dictionary of the source. -/
def monthNames : List (String × Nat) :=
  [("januari", 1), ("jan", 1), ("februari", 2), ("feb", 2), ("peb", 2),
   ("maret", 3), ("mar", 3), ("april", 4), ("apr", 4), ("mei", 5),
   ("juni", 6), ("jun", 6), ("juli", 7), ("jul", 7),
   ("agustus", 8), ("agu", 8), ("ags", 8), ("september", 9), ("sep", 9),
   ("oktober", 10), ("okt", 10), ("november", 11), ("nov", 11),
   ("desember", 12), ("des", 12)]

def mp1 : RE :=
  seqL (.grp 1 (digitsRe 1 (some 2)))
    [ws1, .grp 2 (.rep azC 1 none), .opt (.seq ws1 (.grp 3 (digitsRe 4 (some 4))))]

def mp2 : RE :=
  seqL (.grp 1 (digitsRe 1 (some 2)))
    [.cls slashDashC, .grp 2 (.rep azC 1 none), .opt (.cls slashDashC),
     .opt (.grp 3 (digitsRe 4 (some 4)))]

def mp3 : RE :=
  seqL (.grp 1 (.rep azC 1 none))
    [ws1, .grp 2 (digitsRe 1 (some 2)), .opt (.seq ws1 (.grp 3 (digitsRe 4 (some 4))))]

def monthPatterns : List RE := [mp1, mp2, mp3]

def monthResolve (today : Date) (t : List Char) (m : MatchRes) : Option Date :=
  let g1 := (groupTxt t m 1).getD []
  let g2 := (groupTxt t m 2).getD []
  let g3 := groupTxt t m 3
  let dayMon : Nat × List Char :=
    if g1 ≠ [] ∧ g1.all isDigitC then (natOfDigits g1, g2) else (natOfDigits g2, g1)
  let year : Int := match g3 with | some y => (natOfDigits y : Int) | none => today.year
  match monthNames.find? (fun p => p.1.data == dayMon.2) with
  | some p => mkDate? year p.2 dayMon.1
  | none => none

def monthBranch (today : Date) (t : List Char) : List RE → Option Date
  | [] => none
  | re :: res =>
      match research re t with
      | none => monthBranch today t res
      | some m =>
          match monthResolve today t m with
          | some d => some d
          | none => monthBranch today t res

/-- The weekday dictionary, in the insertion order of the source. -/
def daysMapL : List (String × Nat) :=
  [("senin", 0), ("monday", 0), ("selasa", 1), ("tuesday", 1),
   ("rabu", 2), ("wednesday", 2), ("kamis", 3), ("thursday", 3),
   ("jumat", 4), ("friday", 4), ("sabtu", 5), ("saturday", 5),
   ("minggu", 6), ("sunday", 6), ("ahad", 6)]

/-- The weekday loop of the source: first dictionary entry occurring as
a substring of the text wins; zero or negative day offsets gain seven
days. -/
def weekdayBranch (today : Date) (t : List Char) : Option Date :=
  match daysMapL.find? (fun p => strContains t p.1.data) with
  | none => none
  | some p =>
      let da : Int := (p.2 : Int) - (weekday today : Int)
      let da2 : Int := if da ≤ 0 then da + 7 else da
      some (addDays today da2)

def relP1 : RE := seqL (.grp 1 (digitsRe 1 none)) [ws0, litR "hari", ws0, litR "lalu"]

def relP2 : RE :=
  seqL (.grp 1 (digitsRe 1 none)) [ws0, litR "hari", ws0, litR "yang", ws0, litR "lalu"]

def relP3 : RE := .seq (litR "seminggu") (.seq ws0 (litR "lalu"))

def relP4 : RE := seqL (.grp 1 (digitsRe 1 none)) [ws0, litR "minggu", ws0, litR "lalu"]

def relP5 : RE := seqL (.grp 1 (digitsRe 1 none)) [ws0, litR "bulan", ws0, litR "lalu"]

def relNum (t : List Char) (m : MatchRes) : Int :=
  (natOfDigits ((groupTxt t m 1).getD []) : Int)

def relativeBranch (today : Date) (t : List Char) : Option Date :=
  match research relP1 t with
  | some m => some (addDays today (-(relNum t m)))
  | none =>
    match research relP2 t with
    | some m => some (addDays today (-(relNum t m)))
    | none =>
      match research relP3 t with
      | some _ => some (addDays today (-7))
      | none =>
        match research relP4 t with
        | some m => some (addDays today (-(7 * relNum t m)))
        | none =>
          match research relP5 t with
          | some m => some (addDays today (-(30 * relNum t m)))
          | none => none

def shortcutP1 : RE :=
  seqL (.alt (litR "tgl") (litR "tanggal")) [ws0, .grp 1 (digitsRe 1 (some 2))]

def shortcutP2 : RE :=
  seqL (.opt (.seq (litR "pada") ws0))
    [.opt (.seq (litR "tanggal") ws0), .grp 1 (digitsRe 1 (some 2)),
     .nla (seqL ws0 [.cls slashDashC, ws0, .cls isDigitC])]

/-- Day-of-month resolution of the shortcut branch: day of the
reference month, rolled to the next month when strictly past or
invalid, none when the rolled date is invalid too. -/
def shortcutResolve (today : Date) (day : Nat) : Option Date :=
  if 1 ≤ day ∧ day ≤ 31 then
    let rolled :=
      if today.month = 12 then mkDate? (today.year + 1) 1 day
      else mkDate? today.year (today.month + 1) day
    match mkDate? today.year today.month day with
    | some result => if dateLt result today then rolled else some result
    | none => rolled
  else none

def shortcutBranch (today : Date) (t : List Char) : Option Date :=
  let try1 :=
    match research shortcutP1 t with
    | some m => shortcutResolve today (natOfDigits ((groupTxt t m 1).getD []))
    | none => none
  match try1 with
  | some d => some d
  | none =>
      match research shortcutP2 t with
      | some m => shortcutResolve today (natOfDigits ((groupTxt t m 1).getD []))
      | none => none

/-- parse_date_from_text of the source.  The instant the source reads
from the wall clock via datetime.now inside the function is the
explicit today parameter. -/
def parse_date_from_text (today : Date) (input : String) : Option Date :=
  if input = "" then none
  else
    let t := toLowerL (pyStrip input.data)
    let s := String.mk t
    if s = "hari ini" ∨ s = "today" ∨ s = "sekarang" then some today
    else if s = "kemarin" ∨ s = "yesterday" then some (addDays today (-1))
    else if s = "besok" ∨ s = "tomorrow" then some (addDays today 1)
    else if s = "lusa" ∨ s = "day after tomorrow" then some (addDays today 2)
    else
      tryFormats t <|> monthBranch today t monthPatterns <|>
        weekdayBranch today t <|> relativeBranch today t <|> shortcutBranch today t

/-! ## parse_transaction_text (src/utils/helpers.py lines 295-413) -/

structure Transaction where
  type : String
  amount : ℚ
  description : String
  date : Option Date
  deriving DecidableEq, Repr

def income_keywords : List String :=
  ["gaji", "salary", "upah", "bonus", "tunjangan", "terima", "dapat",
   "pendapatan", "pemasukan", "income", "transfer masuk", "dividen",
   "bunga", "profit", "keuntungan", "freelance", "project fee"]

/-- Declared by the source but never consulted: the type defaults to
expense whenever no income keyword occurs. -/
def expense_keywords : List String :=
  ["beli", "bayar", "buat", "untuk", "spend", "expense", "keluar",
   "shopping", "belanja", "makan", "transport", "bensin", "listrik",
   "internet", "tagihan", "cicilan", "top up", "isi ulang"]

def monthAlt : RE :=
  altL (litR "januari")
    [litR "februari", litR "maret", litR "april", litR "mei", litR "juni",
     litR "juli", litR "agustus", litR "september", litR "oktober",
     litR "november", litR "desember", litR "jan", litR "feb", litR "mar",
     litR "apr", litR "jun", litR "jul", litR "agu", litR "sep", litR "okt",
     litR "nov", litR "des"]

def dp1 : RE :=
  seqL .wb
    [.grp 1 (seqL (digitsRe 1 (some 2))
      [.cls slashDashC, digitsRe 1 (some 2), .cls slashDashC, digitsRe 4 (some 4)]), .wb]

def dp2 : RE :=
  seqL .wb
    [.grp 1 (seqL (digitsRe 1 (some 2))
      [.cls slashDashC, digitsRe 1 (some 2), .cls slashDashC, digitsRe 2 (some 2)]), .wb]

def dp3 : RE :=
  seqL .wb
    [.grp 1 (seqL (digitsRe 1 (some 2))
      [chrRe '.', digitsRe 1 (some 2), chrRe '.', digitsRe 4 (some 4)]), .wb]

def dp4 : RE :=
  seqL .wb
    [.grp 1 (seqL (digitsRe 1 (some 2))
      [ws1, monthAlt, .opt (.seq ws1 (digitsRe 4 (some 4)))]), .wb]

def dp5 : RE := seqL .wb [.grp 1 (.alt (litR "kemarin") (litR "yesterday")), .wb]

def dp6 : RE := seqL .wb [.grp 1 (.alt (litR "besok") (litR "tomorrow")), .wb]

def dp7 : RE := seqL .wb [.grp 1 (litR "lusa"), .wb]

def dp8 : RE :=
  seqL .wb
    [.grp 1 (altL (litR "senin")
      [litR "selasa", litR "rabu", litR "kamis", litR "jumat",
       litR "sabtu", litR "minggu", litR "ahad"]), .wb]

def dp9 : RE :=
  seqL .wb [.alt (litR "tgl") (litR "tanggal"), ws0, .grp 1 (digitsRe 1 (some 2)), .wb]

def dp10 : RE :=
  seqL .wb
    [.opt (.seq (litR "pada") ws0), .seq (litR "tanggal") ws0,
     .grp 1 (digitsRe 1 (some 2)), .wb]

def dp11 : RE :=
  seqL .wb
    [.grp 1 (digitsRe 1 none), ws0, litR "hari", ws0,
     .opt (.seq (litR "yang") ws0), litR "lalu", .wb]

def dp12 : RE :=
  seqL .wb
    [.grp 1 (digitsRe 1 none), ws0, litR "minggu", ws0,
     .opt (.seq (litR "yang") ws0), litR "lalu", .wb]

def datePatterns : List RE :=
  [dp1, dp2, dp3, dp4, dp5, dp6, dp7, dp8, dp9, dp10, dp11, dp12]

/-- Span removal of the source: splice a space over the matched span,
collapse whitespace, strip. -/
def cleanupSpan (t : List Char) (m : MatchRes) : List Char :=
  pyStrip (collapseWs (t.take m.sIdx ++ [' '] ++ t.drop m.eIdx))

/-- The matched date text: group 1 when it matched, else the whole
span, as the lastindex test of the source selects. -/
def matchTxt (t : List Char) (m : MatchRes) : List Char :=
  match groupTxt t m 1 with
  | some g => g
  | none => sliceStr t m.sIdx m.eIdx

def tryDateMatches (today : Date) (t : List Char) : List MatchRes → Option (Date × List Char)
  | [] => none
  | m :: ms =>
      match parse_date_from_text today (String.mk (matchTxt t m)) with
      | some d => some (d, cleanupSpan t m)
      | none => tryDateMatches today t ms

def tryDatePatterns (today : Date) (t : List Char) : List RE → Option (Date × List Char)
  | [] => none
  | re :: res =>
      match tryDateMatches today t (findAllRe re t) with
      | some r => some r
      | none => tryDatePatterns today t res

def ap1 : RE :=
  .grp 1 (seqL numRe
    [ws0, altL (litR "rb")
      [litR "ribu", litR "k", litR "jt", litR "juta", litR "m", litR "million",
       litR "t", litR "trillion", litR "milyar", litR "b"]])

def ap2 : RE :=
  .grp 1 (seqL (digitsRe 1 none)
    [.repSeq [sepDC, isDigitC, isDigitC, isDigitC],
     .opt (.seq (.cls sepDC) (digitsRe 2 (some 2)))])

def ap3 : RE :=
  .grp 1 (.seq (digitsRe 1 none) (.opt (.seq (chrRe '.') (digitsRe 1 none))))

def amountPatterns : List RE := [ap1, ap2, ap3]

/-- The amount scan: first match whose parsed value is strictly
positive wins, and its span is removed. -/
def tryAmountMatches (t : List Char) : List MatchRes → Option (ℚ × List Char)
  | [] => none
  | m :: ms =>
      match parse_amount (String.mk (matchTxt t m)) with
      | some q => if 0 < q then some (q, cleanupSpan t m) else tryAmountMatches t ms
      | none => tryAmountMatches t ms

def tryAmountPatterns (t : List Char) : List RE → Option (ℚ × List Char)
  | [] => none
  | re :: res =>
      match tryAmountMatches t (findAllRe re t) with
      | some r => some r
      | none => tryAmountPatterns t res

/-- The connective-word cleanup pattern of the source, in its
alternation order. -/
def connectRe : RE :=
  seqL .wb
    [altL (litR "pada")
      [litR "di", litR "untuk", litR "dari", litR "ke", litR "yang",
       litR "adalah", litR "dengan", litR "ditanggal", litR "di tanggal",
       litR "pd", litR "tgl", litR "tanggal"], .wb]

def upperFirst : List Char → List Char
  | [] => []
  | c :: cs => c.toUpper :: cs

/-- The date-extraction stage: the stripped working text with the date
span removed, next to the extracted date. -/
def dateStage (today : Date) (input : String) : Option Date × List Char :=
  let text0 := pyStrip input.data
  match tryDatePatterns today text0 datePatterns with
  | some (d, rest) => (some d, rest)
  | none => (none, text0)

/-- The transaction construction of the source once a positive amount
was found: income-keyword type detection, description cleanup with
placeholder fallbacks, first-letter capitalisation. -/
def mkTransaction (original : List Char) (amt : ℚ) (t2 : List Char) (d : Option Date) :
    Transaction :=
  let textLower := toLowerL t2
  let origLower := toLowerL original
  let ttype :=
    if income_keywords.any
        (fun kw => strContains textLower kw.data || strContains origLower kw.data)
    then "income" else "expense"
  let desc1 := pyStrip t2
  let desc2 :=
    if desc1 = [] then
      (if ttype = "expense" then "Transaksi".data else "Pemasukan".data)
    else desc1
  let desc3 := pyStrip (collapseWs (subAll connectRe [] desc2))
  let desc4 := if desc3 = [] then "Transaksi".data else upperFirst desc3
  ⟨ttype, amt, String.mk desc4, d⟩

/-- parse_transaction_text of the source. -/
def parse_transaction_text (today : Date) (input : String) : Option Transaction :=
  match tryAmountPatterns (dateStage today input).2 amountPatterns with
  | none => none
  | some (amt, t2) =>
      some (mkTransaction (pyStrip input.data) amt t2 (dateStage today input).1)

/-! ## detect_transaction_category (src/utils/helpers.py lines 415-444,
taxonomy from src/config.py lines 53-71) -/

structure Category where
  name : String
  keywords : List String
  deriving DecidableEq, Repr

def incomeCategories : List Category :=
  [⟨"Gaji", ["gaji", "salary", "upah"]⟩,
   ⟨"Bonus", ["bonus", "tunjangan"]⟩,
   ⟨"Investasi", ["dividen", "bunga", "profit"]⟩,
   ⟨"Freelance", ["freelance", "project", "client"]⟩,
   ⟨"Lainnya", ["lain", "other", "misc"]⟩]

def expenseCategories : List Category :=
  [⟨"Makanan", ["makan", "food", "groceries", "restaurant", "cafe"]⟩,
   ⟨"Transport", ["bensin", "fuel", "grab", "gojek", "taxi", "bus"]⟩,
   ⟨"Belanja", ["beli", "shopping", "market", "mall"]⟩,
   ⟨"Tagihan", ["listrik", "internet", "air", "telepon", "wifi"]⟩,
   ⟨"Kesehatan", ["dokter", "obat", "hospital", "medical"]⟩,
   ⟨"Hiburan", ["movie", "game", "concert", "vacation"]⟩,
   ⟨"Pendidikan", ["kursus", "buku", "course", "training"]⟩,
   ⟨"Lainnya", ["lain", "other", "misc"]⟩]

/-- Config.DEFAULT_CATEGORIES looked up by transaction type, an absent
key giving the empty list. -/
def defaultCategories (t : String) : List Category :=
  if t = "income" then incomeCategories
  else if t = "expense" then expenseCategories
  else []

/-- The keyword score of one category: twice the keyword length for a
substring hit, five more when the space-padded keyword occurs in the
space-padded description. -/
def categoryScore (descLower : List Char) (c : Category) : Nat :=
  c.keywords.foldl
    (fun score kw =>
      let k := toLowerL kw.data
      if strContains descLower k then
        score + kw.data.length * 2 +
          (if strContains (' ' :: descLower ++ [' ']) (' ' :: k ++ [' ']) then 5 else 0)
      else score) 0

/-- Python max over the insertion-ordered score dictionary with the get
key: the first entry of maximal score. -/
def bestOf (x : String × Nat) : List (String × Nat) → String × Nat
  | [] => x
  | p :: ps => bestOf (if p.2 > x.2 then p else x) ps

def scoredCategories (descLower : List Char) (cats : List Category) : List (String × Nat) :=
  cats.filterMap (fun c =>
    let s := categoryScore descLower c
    if s > 0 then some (c.name, s) else none)

/-- detect_transaction_category of the source: an empty score
dictionary gives the fallback, else the first key of maximal score. -/
def detect_transaction_category (description ttype : String) : String :=
  match scoredCategories (toLowerL description.data) (defaultCategories ttype) with
  | [] => "Lainnya"
  | x :: xs => (bestOf x xs).1

/-! ## Helper lemmas -/

/-- The next-occurrence day offset in the modular form: the distance
from the reference weekday to the target weekday modulo seven, with
zero replaced by seven. -/
def nextWeekdayOffset (target : Nat) (ref : Date) : Int :=
  let k := ((target : Int) - (weekday ref : Int)).emod 7
  if k = 0 then 7 else k

theorem weekday_lt_7 (d : Date) : weekday d < 7 := by
  have h1 : 0 ≤ (toDays d + 3).emod 7 := Int.emod_nonneg _ (by norm_num)
  have h2 : (toDays d + 3).emod 7 < 7 := Int.emod_lt_of_pos _ (by norm_num)
  unfold weekday
  omega

theorem offset_form (t : Nat) (ht : t < 7) (ref : Date) :
    (if ((t : Int) - (weekday ref : Int)) ≤ 0
      then ((t : Int) - (weekday ref : Int)) + 7
      else ((t : Int) - (weekday ref : Int))) = nextWeekdayOffset t ref := by
  have hw := weekday_lt_7 ref
  unfold nextWeekdayOffset
  interval_cases h : weekday ref <;> interval_cases t <;> simp_all <;> decide

theorem mk_ne_empty (c : Char) (l : List Char) : String.mk (c :: l) ≠ "" := by
  intro h
  have := congrArg String.data h
  simp at this

theorem bestOf_mem : ∀ (xs : List (String × Nat)) (x : String × Nat),
    bestOf x xs ∈ x :: xs := by
  intro xs
  induction xs with
  | nil => intro x; simp [bestOf]
  | cons p ps ih =>
      intro x
      show bestOf (if p.2 > x.2 then p else x) ps ∈ x :: p :: ps
      rcases List.mem_cons.mp (ih (if p.2 > x.2 then p else x)) with h | h
      · rw [h]; split <;> simp
      · exact List.mem_cons_of_mem _ (List.mem_cons_of_mem _ h)

theorem bestOf_le : ∀ (xs : List (String × Nat)) (x q : String × Nat),
    q ∈ x :: xs → q.2 ≤ (bestOf x xs).2 := by
  intro xs
  induction xs with
  | nil => intro x q hq; rcases List.mem_cons.mp hq with h | h
           · rw [h]; exact Nat.le_refl _
           · cases h
  | cons p ps ih =>
      intro x q hq
      show q.2 ≤ (bestOf (if p.2 > x.2 then p else x) ps).2
      rcases List.mem_cons.mp hq with h | h
      · rw [h]
        have hx : x.2 ≤ (if p.2 > x.2 then p else x).2 := by split <;> omega
        exact le_trans hx (ih _ _ (List.mem_cons_self _ _))
      · rcases List.mem_cons.mp h with h2 | h2
        · rw [h2]
          have hp : p.2 ≤ (if p.2 > x.2 then p else x).2 := by split <;> omega
          exact le_trans hp (ih _ _ (List.mem_cons_self _ _))
        · exact ih _ _ (List.mem_cons_of_mem _ h2)

theorem bestOf_first : ∀ (xs : List (String × Nat)) (x : String × Nat),
    (∀ p ∈ xs, p.2 ≤ x.2) → bestOf x xs = x := by
  intro xs
  induction xs with
  | nil => intro x _; rfl
  | cons p ps ih =>
      intro x hall
      show bestOf (if p.2 > x.2 then p else x) ps = x
      have hp : p.2 ≤ x.2 := hall p (List.mem_cons_self _ _)
      rw [if_neg (by omega)]
      exact ih x (fun q hq => hall q (List.mem_cons_of_mem _ hq))

theorem tryAmountMatches_pos (t : List Char) :
    ∀ (ms : List MatchRes) (q : ℚ) (rest : List Char),
      tryAmountMatches t ms = some (q, rest) → 0 < q := by
  intro ms
  induction ms with
  | nil => intro q rest h; simp [tryAmountMatches] at h
  | cons m ms ih =>
      intro q rest h
      unfold tryAmountMatches at h
      split at h
      · split at h
        next hq =>
          injection h with h2
          injection h2 with h3 _
          exact h3 ▸ hq
        next => exact ih q rest h
      · exact ih q rest h

theorem tryAmountPatterns_pos (t : List Char) :
    ∀ (res : List RE) (q : ℚ) (rest : List Char),
      tryAmountPatterns t res = some (q, rest) → 0 < q := by
  intro res
  induction res with
  | nil => intro q rest h; simp [tryAmountPatterns] at h
  | cons re res ih =>
      intro q rest h
      unfold tryAmountPatterns at h
      split at h
      next r heq =>
        injection h with h2
        subst h2
        exact tryAmountMatches_pos t _ q rest heq
      next => exact ih q rest h

theorem tryAmountMatches_none_iff (t : List Char) :
    ∀ (ms : List MatchRes),
      tryAmountMatches t ms = none ↔
        ∀ m ∈ ms, ∀ q, parse_amount (String.mk (matchTxt t m)) = some q → ¬ 0 < q := by
  intro ms
  induction ms with
  | nil => simp [tryAmountMatches]
  | cons m ms ih =>
      constructor
      · intro h m2 hm2 q hq
        unfold tryAmountMatches at h
        rcases List.mem_cons.mp hm2 with hc | hc
        · subst hc
          split at h
          next q3 hp =>
            rw [hp] at hq
            injection hq with hq2
            subst hq2
            split at h
            next => cases h
            next hq3 => exact hq3
          next hp => rw [hp] at hq; cases hq
        · split at h
          · split at h
            next => cases h
            next => exact (ih.mp h) m2 hc q hq
          · exact (ih.mp h) m2 hc q hq
      · intro hall
        unfold tryAmountMatches
        split
        next q3 hp =>
          rw [if_neg (hall m (List.mem_cons_self _ _) q3 hp)]
          exact ih.mpr (fun m2 hm2 q hq => hall m2 (List.mem_cons_of_mem _ hm2) q hq)
        next =>
          exact ih.mpr (fun m2 hm2 q hq => hall m2 (List.mem_cons_of_mem _ hm2) q hq)

theorem tryAmountPatterns_none_iff (t : List Char) :
    ∀ (res : List RE),
      tryAmountPatterns t res = none ↔
        ∀ re ∈ res, ∀ m ∈ findAllRe re t, ∀ q,
          parse_amount (String.mk (matchTxt t m)) = some q → ¬ 0 < q := by
  intro res
  induction res with
  | nil => simp [tryAmountPatterns]
  | cons re res ih =>
      constructor
      · intro h re2 hre2 m hm2 q hq
        unfold tryAmountPatterns at h
        split at h
        next => cases h
        next heq =>
          rcases List.mem_cons.mp hre2 with hc | hc
          · subst hc
            exact (tryAmountMatches_none_iff t _).mp heq m hm2 q hq
          · exact (ih.mp h) re2 hc m hm2 q hq
      · intro hall
        unfold tryAmountPatterns
        have h1 : tryAmountMatches t (findAllRe re t) = none :=
          (tryAmountMatches_none_iff t _).mpr
            (fun m hm2 q hq => hall re (List.mem_cons_self _ _) m hm2 q hq)
        rw [h1]
        exact ih.mpr (fun re2 hre2 m hm2 q hq =>
          hall re2 (List.mem_cons_of_mem _ hre2) m hm2 q hq)

/-! ## Claim C1: separator disambiguation of plain grouped numbers -/

/-- C1 counterexample: the claim says a dot used as a thousands
grouping separator is discarded, so parse_amount of 150.000 would be
150000; the code leaves a dot-only string untouched and the float
conversion reads the dot as a decimal point, giving 150. -/
theorem C1_counterexample : parse_amount "150.000" ≠ some 150000 := by decide

/-- C1 amended: with both separators present the rightmost is the
decimal separator, and a lone comma is decimal exactly when followed by
one or two digits; but a lone dot is never discarded as grouping: it is
passed to the float conversion as a decimal point, so 150.000 parses as
150, not 150000. -/
theorem C1_amended :
    parse_amount "150.000" = some 150 ∧
    parse_amount "150,000" = some 150000 ∧
    parse_amount "1.234,56" = some (1234.56 : ℚ) ∧
    parse_amount "1,234.56" = some (1234.56 : ℚ) ∧
    parse_amount "1,234" = some 1234 := by
  have hval : (1234.56 : ℚ) = mkRat 123456 100 := by
    rw [Rat.mkRat_eq_div]; norm_num
  refine ⟨by decide, by decide, ?_, ?_, by decide⟩ <;> rw [hval] <;> decide

/-! ## Claim C2: extractor null-result and invariants -/

/-- The final description fallback always produces a non-empty
string. -/
theorem descNonempty (d3 : List Char) :
    String.mk (if d3 = [] then "Transaksi".data else upperFirst d3) ≠ "" := by
  split
  · exact mk_ne_empty 'T' _
  · next h =>
      cases d3 with
      | nil => exact absurd rfl h
      | cons c l => exact mk_ne_empty _ _

/-- Case analysis of the extractor along the result of its amount
scan. -/
theorem ptt_cases (today : Date) (input : String) :
    (tryAmountPatterns (dateStage today input).2 amountPatterns = none ∧
      parse_transaction_text today input = none) ∨
    (∃ amt t2, tryAmountPatterns (dateStage today input).2 amountPatterns = some (amt, t2) ∧
      parse_transaction_text today input =
        some (mkTransaction (pyStrip input.data) amt t2 (dateStage today input).1)) := by
  cases hm : tryAmountPatterns (dateStage today input).2 amountPatterns with
  | none =>
      left
      exact ⟨rfl, by unfold parse_transaction_text; rw [hm]⟩
  | some r =>
      right
      obtain ⟨amt, t2⟩ := r
      exact ⟨amt, t2, rfl, by unfold parse_transaction_text; rw [hm]⟩

/-- C2: the extractor returns none exactly when no amount-pattern match
in the date-stripped working text parses to a strictly positive amount;
a returned transaction always carries that positive amount and a
non-empty description, and the date field merely mirrors the optional
date extraction. -/
theorem C2_extractor_invariants (today : Date) (input : String) :
    (parse_transaction_text today input = none ↔
      ∀ re ∈ amountPatterns, ∀ m ∈ findAllRe re (dateStage today input).2, ∀ q,
        parse_amount (String.mk (matchTxt (dateStage today input).2 m)) = some q →
          ¬ 0 < q) ∧
    ∀ tr, parse_transaction_text today input = some tr →
      0 < tr.amount ∧ tr.description ≠ "" ∧ tr.date = (dateStage today input).1 := by
  rw [← tryAmountPatterns_none_iff]
  rcases ptt_cases today input with ⟨hm, hp⟩ | ⟨amt, t2, hm, hp⟩
  · refine ⟨by rw [hp, hm]; exact ⟨fun _ => rfl, fun _ => rfl⟩, ?_⟩
    intro tr h
    rw [hp] at h
    cases h
  · constructor
    · rw [hp, hm]
      constructor
      · intro h; cases h
      · intro h; cases h
    · intro tr h
      rw [hp] at h
      injection h with h2
      subst h2
      exact ⟨tryAmountPatterns_pos _ _ amt t2 hm, descNonempty _, rfl⟩

/-- C2 witness at a concrete message. -/
theorem C2_extractor_invariants_witness :
    0 < (⟨"expense", 25000, "Beli makan", none⟩ : Transaction).amount ∧
    (⟨"expense", 25000, "Beli makan", none⟩ : Transaction).description ≠ "" ∧
    (⟨"expense", 25000, "Beli makan", none⟩ : Transaction).date =
      (dateStage ⟨2025, 8, 22⟩ "Beli makan 25000").1 :=
  (C2_extractor_invariants ⟨2025, 8, 22⟩ "Beli makan 25000").2
    ⟨"expense", 25000, "Beli makan", none⟩ (by decide)

/-! ## Claim C3: determinism and the internal clock read -/

/-- C3 counterexample: for a fixed text the result of
parse_date_from_text varies with the instant the function reads from
the wall clock internally (modelled as the today parameter), so the
result is not determined by the caller-visible text argument alone and
the parser does read the clock inside. -/
theorem C3_counterexample :
    parse_date_from_text ⟨2025, 8, 22⟩ "kemarin" ≠
      parse_date_from_text ⟨2025, 8, 23⟩ "kemarin" := by decide

/-- C3 amended: the functions are deterministic in their arguments
plus the internally read instant; with that instant made explicit,
kemarin always resolves to it minus one day, so two wall-clock calls at
different instants give different dates for the same text. -/
theorem C3_amended :
    (∀ ref : Date, parse_date_from_text ref "kemarin" = some (addDays ref (-1))) ∧
    parse_date_from_text ⟨2025, 8, 22⟩ "kemarin" = some ⟨2025, 8, 21⟩ ∧
    parse_date_from_text ⟨2025, 9, 1⟩ "kemarin" = some ⟨2025, 8, 31⟩ :=
  ⟨fun _ => rfl, by decide, by decide⟩

/-! ## Claim C4: relative past offsets -/

/-- C4 counterexample: seminggu lalu does not resolve to the reference
minus seven days; the weekday-substring branch captures the substring
minggu first and resolves to the next Sunday. -/
theorem C4_counterexample :
    parse_date_from_text ⟨2025, 8, 22⟩ "seminggu lalu" ≠
      some (addDays ⟨2025, 8, 22⟩ (-7)) := by decide

/-- C4 amended: the hari and bulan offsets behave as claimed for every
reference instant, but every minggu offset expression contains the
weekday name minggu as a substring and is captured by the earlier
weekday branch, resolving to the next Sunday (the count N ignored). -/
theorem C4_amended :
    (∀ ref : Date, parse_date_from_text ref "3 hari lalu" = some (addDays ref (-3))) ∧
    (∀ ref : Date, parse_date_from_text ref "3 hari yang lalu" = some (addDays ref (-3))) ∧
    (∀ ref : Date, parse_date_from_text ref "2 bulan lalu" = some (addDays ref (-60))) ∧
    (∀ ref : Date, parse_date_from_text ref "seminggu lalu" =
      some (addDays ref (nextWeekdayOffset 6 ref))) ∧
    parse_date_from_text ⟨2025, 8, 22⟩ "seminggu lalu" = some ⟨2025, 8, 24⟩ ∧
    parse_date_from_text ⟨2025, 8, 22⟩ "2 minggu lalu" = some ⟨2025, 8, 24⟩ := by
  refine ⟨fun _ => rfl, fun _ => rfl, fun _ => rfl, ?_, by decide, by decide⟩
  intro ref
  calc parse_date_from_text ref "seminggu lalu"
      = some (addDays ref (if (((6 : Nat) : Int) - (weekday ref : Int)) ≤ 0
          then (((6 : Nat) : Int) - (weekday ref : Int)) + 7
          else (((6 : Nat) : Int) - (weekday ref : Int)))) := rfl
    _ = some (addDays ref (nextWeekdayOffset 6 ref)) := by
          rw [offset_form 6 (by norm_num) ref]

/-! ## Claim C5: weekday-name resolution -/

/-- C5 counterexample: a weekday name equal to the reference day does
not resolve to the reference date; the source adds seven days, giving
the same weekday one week later. -/
theorem C5_counterexample :
    parse_date_from_text ⟨2025, 8, 22⟩ "jumat" ≠ some ⟨2025, 8, 22⟩ ∧
    parse_date_from_text ⟨2025, 8, 22⟩ "jumat" = some ⟨2025, 8, 29⟩ := by decide

/-- C5 amended: weekday names resolve to the offset
(target minus reference weekday) modulo seven with zero replaced by
seven, so the reference date itself is never returned; senin from the
Friday reference 2025-08-22 still gives 2025-08-25. -/
theorem C5_amended :
    (∀ ref : Date, parse_date_from_text ref "senin" =
      some (addDays ref (nextWeekdayOffset 0 ref))) ∧
    (∀ ref : Date, parse_date_from_text ref "jumat" =
      some (addDays ref (nextWeekdayOffset 4 ref))) ∧
    parse_date_from_text ⟨2025, 8, 22⟩ "senin" = some ⟨2025, 8, 25⟩ := by
  refine ⟨?_, ?_, by decide⟩
  · intro ref
    calc parse_date_from_text ref "senin"
        = some (addDays ref (if (((0 : Nat) : Int) - (weekday ref : Int)) ≤ 0
            then (((0 : Nat) : Int) - (weekday ref : Int)) + 7
            else (((0 : Nat) : Int) - (weekday ref : Int)))) := rfl
      _ = some (addDays ref (nextWeekdayOffset 0 ref)) := by
            rw [offset_form 0 (by norm_num) ref]
  · intro ref
    calc parse_date_from_text ref "jumat"
        = some (addDays ref (if (((4 : Nat) : Int) - (weekday ref : Int)) ≤ 0
            then (((4 : Nat) : Int) - (weekday ref : Int)) + 7
            else (((4 : Nat) : Int) - (weekday ref : Int)))) := rfl
      _ = some (addDays ref (nextWeekdayOffset 4 ref)) := by
            rw [offset_form 4 (by norm_num) ref]

/-! ## Claim C6: day-plus-month-name year defaulting -/

/-- C6 counterexample: a month-name date before the reference is not
rolled forward to the next year; 5 januari seen from 2025-08-22 stays
in 2025. -/
theorem C6_counterexample :
    parse_date_from_text ⟨2025, 8, 22⟩ "5 januari" ≠ some ⟨2026, 1, 5⟩ ∧
    parse_date_from_text ⟨2025, 8, 22⟩ "5 januari" = some ⟨2025, 1, 5⟩ := by decide

/-- C6 amended: a day-plus-month-name form without a year defaults the
year to the reference year and is returned as-is, with no roll-forward
when the result lies before the reference instant. -/
theorem C6_amended :
    (∀ ref : Date, parse_date_from_text ref "25 desember" = some ⟨ref.year, 12, 25⟩) ∧
    (∀ ref : Date, parse_date_from_text ref "5 januari" = some ⟨ref.year, 1, 5⟩) ∧
    parse_date_from_text ⟨2025, 8, 22⟩ "25 des 2024" = some ⟨2024, 12, 25⟩ :=
  ⟨fun _ => rfl, fun _ => rfl, by decide⟩

/-! ## Claim C7: magnitude suffixes -/

/-- C7 evaluation at the failing input: the currency cleanup deletes
every letter r, so 150rb becomes 150b whose suffix b hits the
unknown-multiplier else branch and the base 150 is returned instead of
150000; suffixes without the letter r still multiply. -/
theorem C7_code_eval :
    parse_amount "150rb" = some 150 ∧
    parse_amount "150 ribu" = some 150 ∧
    parse_amount "1.5jt" = some 1500000 ∧
    parse_amount "2.5 juta" = some 2500000 ∧
    cleanAmount "150rb" = "150b".data := by decide

/-! ## Claim C9: parse_date totality and the no-match result -/

/-- C9 counterexample: a bare two-digit number with no tgl or tanggal
marker still parses, because the second shortcut pattern makes the
marker optional. -/
theorem C9_counterexample :
    parse_date_from_text ⟨2025, 8, 22⟩ "15" ≠ none := by decide

/-- C9 amended: parse_date is total and returns none when nothing
matches, but the bare-number shortcut needs no marker: a lone one- or
two-digit number resolves as a day of the reference month, rolling to
the next month when already past. -/
theorem C9_amended :
    parse_date_from_text ⟨2025, 8, 22⟩ "halo apa kabar" = none ∧
    parse_date_from_text ⟨2025, 8, 22⟩ "xyz" = none ∧
    parse_date_from_text ⟨2025, 8, 22⟩ "" = none ∧
    parse_date_from_text ⟨2025, 8, 22⟩ "15" = some ⟨2025, 9, 15⟩ ∧
    parse_date_from_text ⟨2025, 8, 22⟩ "tgl 15" = some ⟨2025, 9, 15⟩ := by decide

/-! ## Claim C10: single-letter suffix tokens j, r, b -/

/-- C10: the suffix character class accepts the single letters j, r
and b followed by whitespace or end of input, and the multiplier table
returns the base amount unchanged for them; the letter r can only reach
the pattern directly, since the currency cleanup deletes it from
parse_amount input. -/
theorem C10_single_letter_suffixes :
    parse_amount "5j" = some 5 ∧
    parse_amount "5 b" = some 5 ∧
    multSearch "5r".data = some ("5".data, "r") ∧
    (∀ (s : String) (np : List Char) (suf : String) (q : ℚ),
      multSearch (cleanAmount s) = some (np, suf) →
      (suf = "j" ∨ suf = "r" ∨ suf = "b") →
      parseDecimal (np.map (fun c => if c = ',' then '.' else c)) = some q →
      parse_amount s = some q) := by
  refine ⟨by decide, by decide, by decide, ?_⟩
  intro s np suf q hms hsuf hpd
  have hs : s ≠ "" := by
    intro h
    rw [h] at hms
    have hnone : multSearch (cleanAmount "") = none := by decide
    rw [hnone] at hms
    cases hms
  have happ : applyMultiplier suf q = q := by
    rcases hsuf with h | h | h <;> subst h <;> rfl
  simp only [parse_amount, if_neg hs, hms, hpd, happ]

/-- C10 witness: the general clause applied at the concrete input 5j. -/
theorem C10_single_letter_suffixes_witness : parse_amount "5j" = some 5 :=
  C10_single_letter_suffixes.2.2.2 "5j" "5".data "j" 5 (by decide) (Or.inl rfl) (by decide)

/-! ## Claim C8: keyword-scored category classification -/

/-- C8: the classifier scores each category of the transaction type by
twice the keyword length per substring hit plus five per whole-word
hit, returns a category of maximal positive score with ties going to
the earlier entry, falls back to Lainnya when every score is zero, and
decides the two concrete examples as the spec states. -/
theorem C8_classifier :
    detect_transaction_category "beli bensin di spbu" "expense" = "Transport" ∧
    detect_transaction_category "random text" "expense" = "Lainnya" ∧
    (∀ desc ttype : String,
      (∀ c ∈ defaultCategories ttype, categoryScore (toLowerL desc.data) c = 0) →
      detect_transaction_category desc ttype = "Lainnya") ∧
    (∀ desc ttype name : String,
      detect_transaction_category desc ttype = name →
      name = "Lainnya" ∨
        ∃ c ∈ defaultCategories ttype, c.name = name ∧
          0 < categoryScore (toLowerL desc.data) c ∧
          ∀ c2 ∈ defaultCategories ttype,
            categoryScore (toLowerL desc.data) c2 ≤ categoryScore (toLowerL desc.data) c) ∧
    (∀ (x : String × Nat) (xs : List (String × Nat)),
      (∀ p ∈ xs, p.2 ≤ x.2) → bestOf x xs = x) := by
  refine ⟨by decide, by decide, ?_, ?_, fun x xs h => bestOf_first xs x h⟩
  · intro desc ttype hall
    have hnil : scoredCategories (toLowerL desc.data) (defaultCategories ttype) = [] := by
      apply List.filterMap_eq_nil_iff.mpr
      intro c hc
      simp [hall c hc]
    unfold detect_transaction_category
    rw [hnil]
  · intro desc ttype name h
    unfold detect_transaction_category at h
    cases hsc : scoredCategories (toLowerL desc.data) (defaultCategories ttype) with
    | nil =>
        rw [hsc] at h
        exact Or.inl h.symm
    | cons x xs =>
        rw [hsc] at h
        have h2 : (bestOf x xs).1 = name := h
        right
        have hmem : bestOf x xs ∈
            scoredCategories (toLowerL desc.data) (defaultCategories ttype) := by
          rw [hsc]; exact bestOf_mem xs x
        unfold scoredCategories at hmem
        rw [List.mem_filterMap] at hmem
        obtain ⟨c, hc, hfc⟩ := hmem
        simp only at hfc
        by_cases hpos : categoryScore (toLowerL desc.data) c > 0
        · rw [if_pos hpos] at hfc
          injection hfc with hfc2
          refine ⟨c, hc, ?_, hpos, ?_⟩
          · rw [← h2, ← hfc2]
          · intro c2 hc2
            by_cases hpos2 : categoryScore (toLowerL desc.data) c2 > 0
            · have hmem2 : (c2.name, categoryScore (toLowerL desc.data) c2) ∈
                  scoredCategories (toLowerL desc.data) (defaultCategories ttype) := by
                unfold scoredCategories
                rw [List.mem_filterMap]
                exact ⟨c2, hc2, by simp only [if_pos hpos2]⟩
              rw [hsc] at hmem2
              have hle := bestOf_le xs x _ hmem2
              rw [← hfc2] at hle
              exact hle
            · omega
        · rw [if_neg hpos] at hfc
          cases hfc

/-- C8 witness: the all-zero fallback clause applied at a concrete
description with no keyword hits. -/
theorem C8_classifier_witness :
    detect_transaction_category "zzz" "expense" = "Lainnya" :=
  C8_classifier.2.2.1 "zzz" "expense" (by decide)

end FinanceBot
